import Mathlib

/-!
Shallow embedding of the AI timetable generator browser application
(`App.tsx`, `services/geminiService.ts`, `components/TimetableDisplay.tsx`,
`types.ts`), together with proofs about its drag-and-drop move validation,
generation-response validation, prompt/schema assembly and parameter
handling.
-/

/-! ### Decimal rendering of nonnegative JS numbers
Template literals such as `${numberOfRooms}` convert the number to its
decimal string.  `toDecimalAux` is the standard digit-extraction loop
(structurally recursive on a fuel argument so that it computes). -/

def toDecimalAux : Nat → Nat → List Char
  | 0, _ => []
  | fuel + 1, n =>
    if n < 10 then [Nat.digitChar n]
    else toDecimalAux fuel (n / 10) ++ [Nat.digitChar (n % 10)]

/-- Decimal string of a natural number, modelling JS string interpolation
of a nonnegative integer. -/
def natToString (n : Nat) : String := ⟨toDecimalAux (n + 1) n⟩

/-- Value of a list of decimal digit characters (inverse of `toDecimalAux`,
used only to prove injectivity). -/
def decValue : List Char → Nat
  | [] => 0
  | c :: rest => (c.toNat - 48) * 10 ^ rest.length + decValue rest

theorem decValue_append_singleton (l : List Char) (c : Char) :
    decValue (l ++ [c]) = decValue l * 10 + (c.toNat - 48) := by
  induction l with
  | nil => simp [decValue]
  | cons c' l ih =>
    simp only [List.cons_append, List.append_eq, decValue, ih, List.length_append,
      List.length_cons, List.length_nil]
    ring

theorem digitChar_toNat_sub {d : Nat} (h : d < 10) :
    (Nat.digitChar d).toNat - 48 = d := by
  interval_cases d <;> decide

theorem decValue_toDecimalAux :
    ∀ (fuel n : Nat), n < 10 ^ fuel → decValue (toDecimalAux fuel n) = n := by
  intro fuel
  induction fuel with
  | zero =>
    intro n hn
    rw [pow_zero] at hn
    have h0 : n = 0 := by omega
    subst h0
    rfl
  | succ fuel ih =>
    intro n hn
    by_cases h10 : n < 10
    · simp only [toDecimalAux, if_pos h10, decValue, List.length_nil, pow_zero,
        mul_one, Nat.add_zero]
      exact digitChar_toNat_sub h10
    · have hdiv : n / 10 < 10 ^ fuel := by
        have : n < 10 ^ fuel * 10 := by
          calc n < 10 ^ (fuel + 1) := hn
          _ = 10 ^ fuel * 10 := by ring
        omega
      simp only [toDecimalAux, if_neg h10, decValue_append_singleton, ih _ hdiv,
        digitChar_toNat_sub (Nat.mod_lt n (by omega))]
      omega

theorem natToString_injective : Function.Injective natToString := by
  intro m n h
  have hdata : toDecimalAux (m + 1) m = toDecimalAux (n + 1) n := by
    have := congrArg String.data h
    simpa [natToString] using this
  have hm : m < 10 ^ (m + 1) := by
    calc m < 10 ^ m := Nat.lt_pow_self (by omega) m
    _ ≤ 10 ^ (m + 1) := Nat.pow_le_pow_right (by omega) (Nat.le_succ m)
  have hn : n < 10 ^ (n + 1) := by
    calc n < 10 ^ n := Nat.lt_pow_self (by omega) n
    _ ≤ 10 ^ (n + 1) := Nat.pow_le_pow_right (by omega) (Nat.le_succ n)
  calc m = decValue (toDecimalAux (m + 1) m) := (decValue_toDecimalAux _ _ hm).symm
  _ = decValue (toDecimalAux (n + 1) n) := by rw [hdata]
  _ = n := decValue_toDecimalAux _ _ hn

/-! ### Days of the week (`types.ts`, `constants.ts`) -/

/-- The `DayOfWeek` union type from `types.ts`. -/
inductive DayOfWeek where
  | monday
  | tuesday
  | wednesday
  | thursday
  | friday
deriving DecidableEq, Repr, Fintype

/-- Modelled from the spec: the `DAYS_OF_WEEK` constant of `constants.ts`
(a file not included in the sources) — the five weekday names in calendar
order, as fixed by the spec and by the `DayOfWeek` union of `types.ts`. -/
def DAYS_OF_WEEK : List DayOfWeek :=
  [.monday, .tuesday, .wednesday, .thursday, .friday]

/-- Display name of a day (the string literal of the TS union). -/
def dayName : DayOfWeek → String
  | .monday => "Monday"
  | .tuesday => "Tuesday"
  | .wednesday => "Wednesday"
  | .thursday => "Thursday"
  | .friday => "Friday"

/-- `DAYS_OF_WEEK.indexOf(day)`, used by the sort comparator in
`handleDayToggle`. -/
def dayIdx (d : DayOfWeek) : Nat := DAYS_OF_WEEK.indexOf d

/-! ### Timetable data model (`types.ts`)
JS objects with string keys are modelled as association lists in key
insertion order; `JSON.parse` yields objects with pairwise-distinct keys,
and property lookup/assignment find the first (unique) matching key. -/

/-- `TimetableSlot`: ordered list of class names in one slot. -/
abbrev TimetableSlot := List String

/-- `TimetableDay`: slot identifier ↦ occupant list. -/
abbrev TimetableDay := List (String × TimetableSlot)

/-- `TimetableData`: day ↦ per-day schedule. -/
abbrev TimetableData := List (DayOfWeek × TimetableDay)

/-- `MultiRoomTimetable`: room name ↦ per-room schedule. -/
abbrev MultiRoomTimetable := List (String × TimetableData)

/-- Property read `obj[k]` on a JS object: value at the first matching key,
`none` when the key is absent. -/
def alookup {κ β : Type} [DecidableEq κ] (k : κ) : List (κ × β) → Option β
  | [] => none
  | (k', v) :: rest => if k' = k then some v else alookup k rest

/-- In-place mutation of the value stored at key `k` (no-op when the key is
absent), modelling `obj[k].splice/push/...` on a fresh deep copy. -/
def aupdate {κ β : Type} [DecidableEq κ] (k : κ) (f : β → β) :
    List (κ × β) → List (κ × β)
  | [] => []
  | (k', v) :: rest =>
    if k' = k then (k', f v) :: rest else (k', v) :: aupdate k f rest

theorem alookup_aupdate_self {κ β : Type} [DecidableEq κ] (k : κ) (f : β → β)
    (l : List (κ × β)) : alookup k (aupdate k f l) = (alookup k l).map f := by
  induction l with
  | nil => rfl
  | cons p rest ih =>
    obtain ⟨k', v⟩ := p
    by_cases h : k' = k
    · simp [aupdate, alookup, h]
    · simp [aupdate, alookup, h, ih]

theorem alookup_aupdate_ne {κ β : Type} [DecidableEq κ] {k k' : κ}
    (h : k ≠ k') (f : β → β) (l : List (κ × β)) :
    alookup k (aupdate k' f l) = alookup k l := by
  induction l with
  | nil => rfl
  | cons p rest ih =>
    obtain ⟨k'', v⟩ := p
    by_cases h1 : k'' = k'
    · subst h1
      have h2 : ¬(k'' = k) := fun hh => h hh.symm
      simp only [aupdate, if_pos rfl, alookup, if_neg h2]
    · simp only [aupdate, if_neg h1, alookup, ih]

theorem sum_map_aupdate {κ β : Type} [DecidableEq κ] (k : κ) (f : β → β)
    (g : β → Nat) (l : List (κ × β)) (v : β) (h : alookup k l = some v) :
    ((aupdate k f l).map (fun p => g p.2)).sum + g v =
      (l.map (fun p => g p.2)).sum + g (f v) := by
  induction l with
  | nil => simp [alookup] at h
  | cons p rest ih =>
    obtain ⟨k', w⟩ := p
    by_cases hk : k' = k
    · simp only [alookup, if_pos hk] at h
      obtain rfl : w = v := by injection h
      simp [aupdate, hk]
      omega
    · simp only [alookup, if_neg hk] at h
      have := ih h
      simp [aupdate, hk]
      omega

theorem le_sum_map_of_alookup {κ β : Type} [DecidableEq κ] (k : κ)
    (g : β → Nat) (l : List (κ × β)) (v : β) (h : alookup k l = some v) :
    g v ≤ (l.map (fun p => g p.2)).sum := by
  induction l with
  | nil => simp [alookup] at h
  | cons p rest ih =>
    obtain ⟨k', w⟩ := p
    by_cases hk : k' = k
    · simp only [alookup, if_pos hk] at h
      obtain rfl : w = v := by injection h
      simp only [List.map_cons, List.sum_cons]
      omega
    · simp only [alookup, if_neg hk] at h
      have := ih h
      simp only [List.map_cons, List.sum_cons]
      omega

/-! ### Grade extraction (`getGradeFromClassName` in `App.tsx` and
`TimetableDisplay.tsx`)
`className.match(/Grade (\d)/)` scans for the first position at which the
text reads `Grade ` followed by a decimal digit and captures that digit;
`parseInt(match[1], 10)` is the digit's value. -/

/-- One regex-engine step: does `Grade <digit>` match at the head of `l`?
Returns the captured digit's value. -/
def matchGradeAt (l : List Char) : Option Nat :=
  if "Grade ".data.isPrefixOf l then
    match l.drop 6 with
    | d :: _ => if d.isDigit then some (d.toNat - 48) else none
    | [] => none
  else none

/-- The regex search loop: try to match at each successive position. -/
def gradeScan : List Char → Option Nat
  | [] => none
  | c :: rest =>
    match matchGradeAt (c :: rest) with
    | some g => some g
    | none => gradeScan rest

/-- `getGradeFromClassName` from `App.tsx` / `TimetableDisplay.tsx`. -/
def getGradeFromClassName (className : String) : Option Nat :=
  gradeScan className.data

/-! ### Drag-and-drop move validation and application
(`handleMoveClass` in `App.tsx`) -/

/-- A `{room, day, slot}` source or destination of a drag. -/
structure Loc where
  room : String
  day : DayOfWeek
  slot : String
deriving DecidableEq

set_option synthInstance.maxSize 512 in
instance instDecEqMultiRoomTimetable : DecidableEq MultiRoomTimetable :=
  inferInstance

/-- The two pieces of React state touched by `handleMoveClass`:
the `timetable` and the surfaced `error` message. -/
structure EditorState where
  timetable : Option MultiRoomTimetable
  error : Option String
deriving DecidableEq

/-- `currentTimetable[loc.room]?.[loc.day]?.[loc.slot]`. -/
def slotClasses (tt : MultiRoomTimetable) (loc : Loc) : Option TimetableSlot :=
  (alookup loc.room tt).bind fun roomData =>
    (alookup loc.day roomData).bind fun dayData =>
      alookup loc.slot dayData

/-- Mutation of one slot's occupant list inside the (deep-copied)
timetable, as performed by `splice`/`push`/`sort` on
`newTimetable[room][day][slot]`. -/
def updateSlot (tt : MultiRoomTimetable) (loc : Loc)
    (f : TimetableSlot → TimetableSlot) : MultiRoomTimetable :=
  aupdate loc.room
    (fun roomData =>
      aupdate loc.day (fun dayData => aupdate loc.slot f dayData) roomData)
    tt

/-- `fromSlotClasses.splice(classIndex, 1)` at
`classIndex = findIndex(c => c === className)`: drop the first occurrence. -/
def removeFirst (c : String) : List String → List String
  | [] => []
  | x :: rest => if x = c then rest else x :: removeFirst c rest

/-- JS `Array.prototype.sort()` on a list of strings (default comparator:
lexicographic string order). -/
def sortStrings (l : List String) : List String :=
  l.mergeSort (fun a b => decide (a ≤ b))

/-- The first grade-exclusion condition of `handleMoveClass`:
`(movedGrade === 1 && destinationGrades.includes(2)) ||
 (movedGrade === 2 && destinationGrades.includes(1))`. -/
def conflict12 (movedGrade : Option Nat)
    (destinationGrades : List (Option Nat)) : Bool :=
  (movedGrade == some 1 && destinationGrades.contains (some 2)) ||
    (movedGrade == some 2 && destinationGrades.contains (some 1))

/-- The second grade-exclusion condition of `handleMoveClass`
(grades 3 and 4). -/
def conflict34 (movedGrade : Option Nat)
    (destinationGrades : List (Option Nat)) : Bool :=
  (movedGrade == some 3 && destinationGrades.contains (some 4)) ||
    (movedGrade == some 4 && destinationGrades.contains (some 3))

/-- The capacity-rejection message of `handleMoveClass`. -/
def capacityMessage (className : String) (t : Loc)
    (maxConcurrentClasses : Nat) : String :=
  "Cannot move \"" ++ className ++ "\". The \"" ++ t.slot ++ "\" slot in " ++
    t.room ++ " on " ++ dayName t.day ++ " is full (max " ++
    natToString maxConcurrentClasses ++ " classes)."

/-- The grade-1/2 rejection message of `handleMoveClass`. -/
def gradeConflictMessage12 : String :=
  "Cannot move: Grade 1 and Grade 2 classes cannot be in the same slot."

/-- The grade-3/4 rejection message of `handleMoveClass`. -/
def gradeConflictMessage34 : String :=
  "Cannot move: Grade 3 and Grade 4 classes cannot be in the same slot."

/-- `handleMoveClass` from `App.tsx`: validates a drag-and-drop move and,
when accepted, applies it to a deep copy of the timetable (remove the
class from the source slot, push it into the destination slot, sort the
destination slot). -/
def handleMoveClass (maxConcurrentClasses : Nat) (className : String)
    (f t : Loc) (s : EditorState) : EditorState :=
  if f.room = t.room ∧ f.day = t.day ∧ f.slot = t.slot then s
  else
    match s.timetable with
    | none => s
    | some currentTimetable =>
      match slotClasses currentTimetable t with
      | none => s
      | some toSlotClasses =>
        if className ∈ toSlotClasses then s
        else if maxConcurrentClasses ≤ toSlotClasses.length then
          { timetable := some currentTimetable,
            error := some (capacityMessage className t maxConcurrentClasses) }
        else if conflict12 (getGradeFromClassName className)
            (toSlotClasses.map getGradeFromClassName) then
          { timetable := some currentTimetable,
            error := some gradeConflictMessage12 }
        else if conflict34 (getGradeFromClassName className)
            (toSlotClasses.map getGradeFromClassName) then
          { timetable := some currentTimetable,
            error := some gradeConflictMessage34 }
        else
          match slotClasses currentTimetable f with
          | none => s
          | some fromSlotClasses =>
            if className ∈ fromSlotClasses then
              { timetable := some (updateSlot
                  (updateSlot currentTimetable f (removeFirst className)) t
                  (fun l => sortStrings (l ++ [className]))),
                error := none }
            else s

theorem slotClasses_updateSlot_self (tt : MultiRoomTimetable) (loc : Loc)
    (f : TimetableSlot → TimetableSlot) :
    slotClasses (updateSlot tt loc f) loc = (slotClasses tt loc).map f := by
  simp only [slotClasses, updateSlot, alookup_aupdate_self]
  cases alookup loc.room tt with
  | none => rfl
  | some roomData =>
    simp only [Option.map_some', Option.some_bind, alookup_aupdate_self]
    cases alookup loc.day roomData with
    | none => rfl
    | some dayData =>
      simp only [Option.map_some', Option.some_bind, alookup_aupdate_self]

theorem slotClasses_updateSlot_ne (tt : MultiRoomTimetable) {loc loc' : Loc}
    (h : loc' ≠ loc) (f : TimetableSlot → TimetableSlot) :
    slotClasses (updateSlot tt loc f) loc' = slotClasses tt loc' := by
  obtain ⟨r, d, sl⟩ := loc
  obtain ⟨r', d', sl'⟩ := loc'
  simp only [slotClasses, updateSlot]
  by_cases hr : r' = r
  · subst hr
    rw [alookup_aupdate_self]
    cases alookup r' tt with
    | none => rfl
    | some roomData =>
      simp only [Option.map_some', Option.some_bind]
      by_cases hd : d' = d
      · subst hd
        rw [alookup_aupdate_self]
        cases alookup d' roomData with
        | none => rfl
        | some dayData =>
          simp only [Option.map_some', Option.some_bind]
          have hs : sl' ≠ sl := by
            intro hs
            exact h (by rw [hs])
          rw [alookup_aupdate_ne hs]
      · rw [alookup_aupdate_ne hd]
  · rw [alookup_aupdate_ne hr]

/-- Sum of `g` over every slot of a day. -/
def dayMeasure (g : TimetableSlot → Nat) (dd : TimetableDay) : Nat :=
  (dd.map (fun p => g p.2)).sum

/-- Sum of `g` over every slot of a room. -/
def roomMeasure (g : TimetableSlot → Nat) (rd : TimetableData) : Nat :=
  (rd.map (fun p => dayMeasure g p.2)).sum

/-- Sum of `g` over every slot of the whole timetable. -/
def ttMeasure (g : TimetableSlot → Nat) (tt : MultiRoomTimetable) : Nat :=
  (tt.map (fun p => roomMeasure g p.2)).sum

/-- Total number of class entries in the whole timetable. -/
def ttTotal (tt : MultiRoomTimetable) : Nat :=
  ttMeasure (fun l => l.length) tt

/-- Number of occurrences of class name `c` in the whole timetable. -/
def ttCount (c : String) (tt : MultiRoomTimetable) : Nat :=
  ttMeasure (fun l => l.count c) tt

theorem ttMeasure_updateSlot (g : TimetableSlot → Nat) (tt : MultiRoomTimetable)
    (loc : Loc) (f : TimetableSlot → TimetableSlot) (occ : TimetableSlot)
    (h : slotClasses tt loc = some occ) :
    ttMeasure g (updateSlot tt loc f) + g occ = ttMeasure g tt + g (f occ) := by
  simp only [slotClasses] at h
  cases hr : alookup loc.room tt with
  | none => rw [hr] at h; simp at h
  | some roomData =>
    rw [hr] at h
    simp only [Option.some_bind] at h
    cases hd : alookup loc.day roomData with
    | none => rw [hd] at h; simp at h
    | some dayData =>
      rw [hd] at h
      simp only [Option.some_bind] at h
      have A : ttMeasure g (updateSlot tt loc f) + roomMeasure g roomData =
          ttMeasure g tt + roomMeasure g
            (aupdate loc.day (fun dayData => aupdate loc.slot f dayData)
              roomData) :=
        sum_map_aupdate loc.room _ (roomMeasure g) tt roomData hr
      have B : roomMeasure g
            (aupdate loc.day (fun dayData => aupdate loc.slot f dayData)
              roomData) + dayMeasure g dayData =
          roomMeasure g roomData + dayMeasure g (aupdate loc.slot f dayData) :=
        sum_map_aupdate loc.day _ (dayMeasure g) roomData dayData hd
      have C : dayMeasure g (aupdate loc.slot f dayData) + g occ =
          dayMeasure g dayData + g (f occ) :=
        sum_map_aupdate loc.slot f g dayData occ h
      omega

theorem slotClasses_le_ttMeasure (g : TimetableSlot → Nat)
    (tt : MultiRoomTimetable) (loc : Loc) (occ : TimetableSlot)
    (h : slotClasses tt loc = some occ) : g occ ≤ ttMeasure g tt := by
  simp only [slotClasses] at h
  cases hr : alookup loc.room tt with
  | none => rw [hr] at h; simp at h
  | some roomData =>
    rw [hr] at h
    simp only [Option.some_bind] at h
    cases hd : alookup loc.day roomData with
    | none => rw [hd] at h; simp at h
    | some dayData =>
      rw [hd] at h
      simp only [Option.some_bind] at h
      have A : roomMeasure g roomData ≤ ttMeasure g tt :=
        le_sum_map_of_alookup loc.room (roomMeasure g) tt roomData hr
      have B : dayMeasure g dayData ≤ roomMeasure g roomData :=
        le_sum_map_of_alookup loc.day (dayMeasure g) roomData dayData hd
      have C : g occ ≤ dayMeasure g dayData :=
        le_sum_map_of_alookup loc.slot g dayData occ h
      omega

theorem removeFirst_length {c : String} :
    ∀ {l : List String}, c ∈ l → (removeFirst c l).length + 1 = l.length := by
  intro l
  induction l with
  | nil => intro h; cases h
  | cons x rest ih =>
    intro h
    by_cases hx : x = c
    · simp [removeFirst, hx]
    · have hmem : c ∈ rest := by
        cases h with
        | head => exact absurd rfl hx
        | tail _ h => exact h
      simp only [removeFirst, if_neg hx, List.length_cons]
      rw [← ih hmem]

theorem removeFirst_count_self {c : String} :
    ∀ {l : List String}, c ∈ l → (removeFirst c l).count c + 1 = l.count c := by
  intro l
  induction l with
  | nil => intro h; cases h
  | cons x rest ih =>
    intro h
    by_cases hx : x = c
    · subst hx
      simp [removeFirst, List.count_cons_self]
    · have hmem : c ∈ rest := by
        cases h with
        | head => exact absurd rfl hx
        | tail _ h => exact h
      have hcc : c ≠ x := fun hh => hx hh.symm
      simp only [removeFirst, if_neg hx, List.count_cons_of_ne hcc]
      exact ih hmem

theorem sortStrings_perm (l : List String) : (sortStrings l).Perm l :=
  List.mergeSort_perm l _

theorem sortStrings_count (l : List String) (c : String) :
    (sortStrings l).count c = l.count c :=
  (sortStrings_perm l).count_eq c

theorem sortStrings_length (l : List String) :
    (sortStrings l).length = l.length :=
  (sortStrings_perm l).length_eq

/-- Unfolding of `handleMoveClass` on a fully accepted move: the class is
removed from the source slot, pushed into the destination slot, the
destination slot is sorted, and the surfaced error is cleared. -/
theorem handleMoveClass_accepts (maxConcurrentClasses : Nat)
    (className : String) (f t : Loc) (s : EditorState)
    (tt : MultiRoomTimetable) (toSlotClasses fromSlotClasses : TimetableSlot)
    (hne : ¬(f.room = t.room ∧ f.day = t.day ∧ f.slot = t.slot))
    (hst : s.timetable = some tt)
    (hto : slotClasses tt t = some toSlotClasses)
    (hnotin : className ∉ toSlotClasses)
    (hcap : toSlotClasses.length < maxConcurrentClasses)
    (h12 : conflict12 (getGradeFromClassName className)
      (toSlotClasses.map getGradeFromClassName) = false)
    (h34 : conflict34 (getGradeFromClassName className)
      (toSlotClasses.map getGradeFromClassName) = false)
    (hfrom : slotClasses tt f = some fromSlotClasses)
    (hin : className ∈ fromSlotClasses) :
    handleMoveClass maxConcurrentClasses className f t s =
      { timetable := some (updateSlot
          (updateSlot tt f (removeFirst className)) t
          (fun l => sortStrings (l ++ [className]))),
        error := none } := by
  have hcap' : ¬ maxConcurrentClasses ≤ toSlotClasses.length := by omega
  simp only [handleMoveClass, if_neg hne, hst, hto, hfrom, h12, h34,
    if_neg hnotin, if_neg hcap', if_pos hin, Bool.false_eq_true, if_false]

/-- **C5**: for every timetable and every move whose source
`{room, day, slot}` triple is identical to its destination triple,
`handleMoveClass` is a no-op: the application state (timetable and error)
is returned unchanged. -/
theorem c5_move_to_same_slot_noop (maxConcurrentClasses : Nat)
    (className : String) (f t : Loc) (s : EditorState)
    (hr : f.room = t.room) (hd : f.day = t.day) (hs : f.slot = t.slot) :
    handleMoveClass maxConcurrentClasses className f t s = s := by
  simp only [handleMoveClass]
  rw [if_pos ⟨hr, hd, hs⟩]

/-- Witness for **C5** at a concrete state. -/
theorem c5_move_to_same_slot_noop_witness :
    handleMoveClass 3 "Grade 1 - A" ⟨"Room 1", .monday, "Slot 1"⟩
      ⟨"Room 1", .monday, "Slot 1"⟩
      ⟨some [("Room 1", [(.monday, [("Slot 1", ["Grade 1 - A"])])])], none⟩ =
      ⟨some [("Room 1", [(.monday, [("Slot 1", ["Grade 1 - A"])])])], none⟩ :=
  c5_move_to_same_slot_noop 3 "Grade 1 - A" _ _ _ rfl rfl rfl

/-- **C1**: if every class name occurs at most once in the timetable and a
move is accepted and applied (distinct source/destination triples,
destination present, class not already there, destination below capacity,
no grade conflict, class found in its source slot), then the resulting
timetable has the same total number of class entries, and the moved class
occurs exactly once, namely in the destination slot and not in the source
slot. -/
theorem c1_accepted_move_preserves_classes (maxConcurrentClasses : Nat)
    (className : String) (f t : Loc) (s : EditorState)
    (tt : MultiRoomTimetable) (toSlotClasses fromSlotClasses : TimetableSlot)
    (huniq : ∀ c, ttCount c tt ≤ 1)
    (hne : ¬(f.room = t.room ∧ f.day = t.day ∧ f.slot = t.slot))
    (hst : s.timetable = some tt)
    (hto : slotClasses tt t = some toSlotClasses)
    (hnotin : className ∉ toSlotClasses)
    (hcap : toSlotClasses.length < maxConcurrentClasses)
    (h12 : conflict12 (getGradeFromClassName className)
      (toSlotClasses.map getGradeFromClassName) = false)
    (h34 : conflict34 (getGradeFromClassName className)
      (toSlotClasses.map getGradeFromClassName) = false)
    (hfrom : slotClasses tt f = some fromSlotClasses)
    (hin : className ∈ fromSlotClasses) :
    ∃ tt', (handleMoveClass maxConcurrentClasses className f t s).timetable =
        some tt' ∧
      ttTotal tt' = ttTotal tt ∧
      ttCount className tt' = 1 ∧
      (∃ occT, slotClasses tt' t = some occT ∧ occT.count className = 1) ∧
      (∃ occF, slotClasses tt' f = some occF ∧ className ∉ occF) := by
  have hftne : f ≠ t := by
    intro he
    exact hne (by rw [he]; exact ⟨rfl, rfl, rfl⟩)
  have htfne : t ≠ f := fun hh => hftne hh.symm
  have hstep := handleMoveClass_accepts maxConcurrentClasses className f t s tt
    toSlotClasses fromSlotClasses hne hst hto hnotin hcap h12 h34 hfrom hin
  set tt1 := updateSlot tt f (removeFirst className) with htt1
  set tt2 := updateSlot tt1 t (fun l => sortStrings (l ++ [className]))
    with htt2
  refine ⟨tt2, by rw [hstep], ?_, ?_, ?_, ?_⟩
  case _ =>
    -- total class count is preserved
    have e1 : ttTotal tt1 + fromSlotClasses.length =
        ttTotal tt + (removeFirst className fromSlotClasses).length :=
      ttMeasure_updateSlot _ tt f _ fromSlotClasses hfrom
    have hto1 : slotClasses tt1 t = some toSlotClasses := by
      rw [htt1, slotClasses_updateSlot_ne tt htfne]
      exact hto
    have e2 : ttTotal tt2 + toSlotClasses.length =
        ttTotal tt1 + (sortStrings (toSlotClasses ++ [className])).length :=
      ttMeasure_updateSlot _ tt1 t _ toSlotClasses hto1
    have hrl : (removeFirst className fromSlotClasses).length + 1 =
        fromSlotClasses.length := removeFirst_length hin
    have hsl : (sortStrings (toSlotClasses ++ [className])).length =
        toSlotClasses.length + 1 := by
      rw [sortStrings_length, List.length_append, List.length_cons,
        List.length_nil]
    omega
  case _ =>
    -- the moved class occurs exactly once afterwards
    have hcnt_le : fromSlotClasses.count className ≤ ttCount className tt :=
      slotClasses_le_ttMeasure _ tt f fromSlotClasses hfrom
    have hcnt_pos : 0 < fromSlotClasses.count className :=
      List.count_pos_iff.mpr hin
    have hcnt_from : fromSlotClasses.count className = 1 := by
      have := huniq className
      omega
    have e1 : ttCount className tt1 + fromSlotClasses.count className =
        ttCount className tt +
          (removeFirst className fromSlotClasses).count className :=
      ttMeasure_updateSlot _ tt f _ fromSlotClasses hfrom
    have hrc : (removeFirst className fromSlotClasses).count className + 1 =
        fromSlotClasses.count className := removeFirst_count_self hin
    have hto1 : slotClasses tt1 t = some toSlotClasses := by
      rw [htt1, slotClasses_updateSlot_ne tt htfne]
      exact hto
    have e2 : ttCount className tt2 + toSlotClasses.count className =
        ttCount className tt1 +
          (sortStrings (toSlotClasses ++ [className])).count className :=
      ttMeasure_updateSlot _ tt1 t _ toSlotClasses hto1
    have hc0 : toSlotClasses.count className = 0 :=
      List.count_eq_zero.mpr hnotin
    have hcsort : (sortStrings (toSlotClasses ++ [className])).count className =
        toSlotClasses.count className + 1 := by
      rw [sortStrings_count, List.count_append]
      simp
    have := huniq className
    omega
  case _ =>
    -- destination slot contains the moved class exactly once
    have hto1 : slotClasses tt1 t = some toSlotClasses := by
      rw [htt1, slotClasses_updateSlot_ne tt htfne]
      exact hto
    refine ⟨sortStrings (toSlotClasses ++ [className]), ?_, ?_⟩
    · rw [htt2, slotClasses_updateSlot_self, hto1]
      rfl
    · have hc0 : toSlotClasses.count className = 0 :=
        List.count_eq_zero.mpr hnotin
      rw [sortStrings_count, List.count_append]
      simp [hc0]
  case _ =>
    -- source slot no longer contains the moved class
    have hfrom1 : slotClasses tt1 f =
        some (removeFirst className fromSlotClasses) := by
      rw [htt1, slotClasses_updateSlot_self, hfrom]
      rfl
    refine ⟨removeFirst className fromSlotClasses, ?_, ?_⟩
    · rw [htt2, slotClasses_updateSlot_ne tt1 hftne]
      exact hfrom1
    · have hcnt_le : fromSlotClasses.count className ≤ ttCount className tt :=
        slotClasses_le_ttMeasure _ tt f fromSlotClasses hfrom
      have hcnt_pos : 0 < fromSlotClasses.count className :=
        List.count_pos_iff.mpr hin
      have hrc : (removeFirst className fromSlotClasses).count className + 1 =
          fromSlotClasses.count className := removeFirst_count_self hin
      have := huniq className
      refine List.count_eq_zero.mp ?_
      omega

/-- The concrete two-slot timetable used by the C1 witness. -/
def ttWitness : MultiRoomTimetable :=
  [("Room 1", [(.monday,
    [("Slot 1", ["Grade 1 - A"]), ("Slot 2", ["Grade 5 - A"])])])]

theorem ttWitness_uniq : ∀ c, ttCount c ttWitness ≤ 1 := by
  intro c
  simp only [ttWitness, ttCount, ttMeasure, roomMeasure, dayMeasure,
    List.map_cons, List.map_nil, List.sum_cons, List.sum_nil,
    List.count_cons, List.count_nil]
  by_cases h1 : ("Grade 1 - A" : String) = c
  · by_cases h2 : ("Grade 5 - A" : String) = c
    · exact absurd (h1.trans h2.symm) (by decide)
    · simp [h1, h2]
  · by_cases h2 : ("Grade 5 - A" : String) = c
    · simp [h1, h2]
    · simp [h1, h2]

/-- Witness for **C1** at a concrete accepted move. -/
theorem c1_accepted_move_preserves_classes_witness :
    ∃ tt', (handleMoveClass 3 "Grade 1 - A"
        ⟨"Room 1", .monday, "Slot 1"⟩ ⟨"Room 1", .monday, "Slot 2"⟩
        ⟨some ttWitness, none⟩).timetable = some tt' ∧
      ttTotal tt' = ttTotal ttWitness ∧
      ttCount "Grade 1 - A" tt' = 1 ∧
      (∃ occT, slotClasses tt' ⟨"Room 1", .monday, "Slot 2"⟩ = some occT ∧
        occT.count "Grade 1 - A" = 1) ∧
      (∃ occF, slotClasses tt' ⟨"Room 1", .monday, "Slot 1"⟩ = some occF ∧
        "Grade 1 - A" ∉ occF) :=
  c1_accepted_move_preserves_classes 3 "Grade 1 - A"
    ⟨"Room 1", .monday, "Slot 1"⟩ ⟨"Room 1", .monday, "Slot 2"⟩
    ⟨some ttWitness, none⟩ ttWitness ["Grade 5 - A"] ["Grade 1 - A"]
    ttWitness_uniq (by decide) rfl (by decide) (by decide) (by decide)
    (by decide) (by decide) (by decide) (by decide)

theorem infix_append_right {α : Type} (x : List α) {l m : List α}
    (h : l <:+: m) : l <:+: x ++ m := by
  obtain ⟨s, t', rfl⟩ := h
  exact ⟨x ++ s, t', by simp⟩

theorem infix_refl_append {α : Type} (l t' : List α) : l <:+: l ++ t' :=
  ⟨[], t', by simp⟩

/-- Unfolding of `handleMoveClass` on the capacity-rejection branch. -/
theorem handleMoveClass_capacity (maxConcurrentClasses : Nat)
    (className : String) (f t : Loc) (s : EditorState)
    (tt : MultiRoomTimetable) (toSlotClasses : TimetableSlot)
    (hne : ¬(f.room = t.room ∧ f.day = t.day ∧ f.slot = t.slot))
    (hst : s.timetable = some tt)
    (hto : slotClasses tt t = some toSlotClasses)
    (hnotin : className ∉ toSlotClasses)
    (hcap : maxConcurrentClasses ≤ toSlotClasses.length) :
    handleMoveClass maxConcurrentClasses className f t s =
      { timetable := some tt,
        error := some (capacityMessage className t maxConcurrentClasses) } := by
  simp only [handleMoveClass, if_neg hne, hst, hto, if_neg hnotin, if_pos hcap]

/-- Unfolding of `handleMoveClass` on the grade-1/2 rejection branch. -/
theorem handleMoveClass_reject12 (maxConcurrentClasses : Nat)
    (className : String) (f t : Loc) (s : EditorState)
    (tt : MultiRoomTimetable) (toSlotClasses : TimetableSlot)
    (hne : ¬(f.room = t.room ∧ f.day = t.day ∧ f.slot = t.slot))
    (hst : s.timetable = some tt)
    (hto : slotClasses tt t = some toSlotClasses)
    (hnotin : className ∉ toSlotClasses)
    (hcap : toSlotClasses.length < maxConcurrentClasses)
    (hc12 : conflict12 (getGradeFromClassName className)
      (toSlotClasses.map getGradeFromClassName) = true) :
    handleMoveClass maxConcurrentClasses className f t s =
      { timetable := some tt, error := some gradeConflictMessage12 } := by
  have hcap' : ¬ maxConcurrentClasses ≤ toSlotClasses.length := by omega
  simp only [handleMoveClass, if_neg hne, hst, hto, if_neg hnotin,
    if_neg hcap', hc12, if_true]

/-- Unfolding of `handleMoveClass` on the grade-3/4 rejection branch. -/
theorem handleMoveClass_reject34 (maxConcurrentClasses : Nat)
    (className : String) (f t : Loc) (s : EditorState)
    (tt : MultiRoomTimetable) (toSlotClasses : TimetableSlot)
    (hne : ¬(f.room = t.room ∧ f.day = t.day ∧ f.slot = t.slot))
    (hst : s.timetable = some tt)
    (hto : slotClasses tt t = some toSlotClasses)
    (hnotin : className ∉ toSlotClasses)
    (hcap : toSlotClasses.length < maxConcurrentClasses)
    (hc12 : conflict12 (getGradeFromClassName className)
      (toSlotClasses.map getGradeFromClassName) = false)
    (hc34 : conflict34 (getGradeFromClassName className)
      (toSlotClasses.map getGradeFromClassName) = true) :
    handleMoveClass maxConcurrentClasses className f t s =
      { timetable := some tt, error := some gradeConflictMessage34 } := by
  have hcap' : ¬ maxConcurrentClasses ≤ toSlotClasses.length := by omega
  simp only [handleMoveClass, if_neg hne, hst, hto, if_neg hnotin,
    if_neg hcap', hc12, hc34, Bool.false_eq_true, if_false, if_true]

/-- **C3**: a move into an existing destination slot (distinct from the
source) that does not already hold the class but whose occupant count is at
or above the configured maximum is rejected with the capacity message —
which literally names the slot, the room and the day — and the timetable
is left unchanged. -/
theorem c3_capacity_conflict_reject (maxConcurrentClasses : Nat)
    (className : String) (f t : Loc) (s : EditorState)
    (tt : MultiRoomTimetable) (toSlotClasses : TimetableSlot)
    (hne : ¬(f.room = t.room ∧ f.day = t.day ∧ f.slot = t.slot))
    (hst : s.timetable = some tt)
    (hto : slotClasses tt t = some toSlotClasses)
    (hnotin : className ∉ toSlotClasses)
    (hcap : maxConcurrentClasses ≤ toSlotClasses.length) :
    (handleMoveClass maxConcurrentClasses className f t s).timetable =
      s.timetable ∧
    (handleMoveClass maxConcurrentClasses className f t s).error =
      some (capacityMessage className t maxConcurrentClasses) ∧
    t.slot.data <:+: (capacityMessage className t maxConcurrentClasses).data ∧
    t.room.data <:+: (capacityMessage className t maxConcurrentClasses).data ∧
    (dayName t.day).data <:+:
      (capacityMessage className t maxConcurrentClasses).data := by
  have h := handleMoveClass_capacity maxConcurrentClasses className f t s tt
    toSlotClasses hne hst hto hnotin hcap
  refine ⟨by rw [h, hst], by rw [h], ?_, ?_, ?_⟩
  · simp only [capacityMessage, String.data_append, List.append_assoc]
    exact infix_append_right _ (infix_append_right _ (infix_append_right _
      (infix_refl_append _ _)))
  · simp only [capacityMessage, String.data_append, List.append_assoc]
    exact infix_append_right _ (infix_append_right _ (infix_append_right _
      (infix_append_right _ (infix_append_right _ (infix_refl_append _ _)))))
  · simp only [capacityMessage, String.data_append, List.append_assoc]
    exact infix_append_right _ (infix_append_right _ (infix_append_right _
      (infix_append_right _ (infix_append_right _ (infix_append_right _
        (infix_append_right _ (infix_refl_append _ _)))))))

/-- Witness for **C3** at a concrete over-full destination slot. -/
theorem c3_capacity_conflict_reject_witness :
    (handleMoveClass 1 "Grade 5 - A"
        ⟨"Room 1", .monday, "Slot 2"⟩ ⟨"Room 1", .monday, "Slot 1"⟩
        ⟨some ttWitness, none⟩).timetable = some ttWitness ∧
    (handleMoveClass 1 "Grade 5 - A"
        ⟨"Room 1", .monday, "Slot 2"⟩ ⟨"Room 1", .monday, "Slot 1"⟩
        ⟨some ttWitness, none⟩).error =
      some (capacityMessage "Grade 5 - A" ⟨"Room 1", .monday, "Slot 1"⟩ 1) ∧
    ("Slot 1" : String).data <:+:
      (capacityMessage "Grade 5 - A" ⟨"Room 1", .monday, "Slot 1"⟩ 1).data ∧
    ("Room 1" : String).data <:+:
      (capacityMessage "Grade 5 - A" ⟨"Room 1", .monday, "Slot 1"⟩ 1).data ∧
    (dayName .monday).data <:+:
      (capacityMessage "Grade 5 - A" ⟨"Room 1", .monday, "Slot 1"⟩ 1).data :=
  c3_capacity_conflict_reject 1 "Grade 5 - A"
    ⟨"Room 1", .monday, "Slot 2"⟩ ⟨"Room 1", .monday, "Slot 1"⟩
    ⟨some ttWitness, none⟩ ttWitness ["Grade 1 - A"]
    (by decide) rfl (by decide) (by decide) (by decide)

/-- **C4**: for every timetable holding the destination slot, a move of a
derived-grade-1 class into a slot with a derived-grade-2 occupant (or vice
versa, and likewise for the 3/4 pair) leaves the timetable unchanged; when
the move is otherwise admissible (class not already present, slot below
capacity) it is rejected with the corresponding grade-conflict message;
and a class name from which no grade can be derived never satisfies either
exclusion condition. -/
theorem c4_grade_exclusion (maxConcurrentClasses : Nat) (className : String)
    (f t : Loc) (s : EditorState) (tt : MultiRoomTimetable)
    (toSlotClasses : TimetableSlot)
    (hne : ¬(f.room = t.room ∧ f.day = t.day ∧ f.slot = t.slot))
    (hst : s.timetable = some tt)
    (hto : slotClasses tt t = some toSlotClasses) :
    (((getGradeFromClassName className = some 1 ∧
        some 2 ∈ toSlotClasses.map getGradeFromClassName) ∨
      (getGradeFromClassName className = some 2 ∧
        some 1 ∈ toSlotClasses.map getGradeFromClassName) ∨
      (getGradeFromClassName className = some 3 ∧
        some 4 ∈ toSlotClasses.map getGradeFromClassName) ∨
      (getGradeFromClassName className = some 4 ∧
        some 3 ∈ toSlotClasses.map getGradeFromClassName)) →
      (handleMoveClass maxConcurrentClasses className f t s).timetable =
        s.timetable) ∧
    (className ∉ toSlotClasses → toSlotClasses.length < maxConcurrentClasses →
      ((getGradeFromClassName className = some 1 ∧
          some 2 ∈ toSlotClasses.map getGradeFromClassName) ∨
        (getGradeFromClassName className = some 2 ∧
          some 1 ∈ toSlotClasses.map getGradeFromClassName)) →
      (handleMoveClass maxConcurrentClasses className f t s).error =
        some gradeConflictMessage12) ∧
    (className ∉ toSlotClasses → toSlotClasses.length < maxConcurrentClasses →
      ((getGradeFromClassName className = some 3 ∧
          some 4 ∈ toSlotClasses.map getGradeFromClassName) ∨
        (getGradeFromClassName className = some 4 ∧
          some 3 ∈ toSlotClasses.map getGradeFromClassName)) →
      (handleMoveClass maxConcurrentClasses className f t s).error =
        some gradeConflictMessage34) ∧
    (∀ (name : String) (destinationGrades : List (Option Nat)),
      getGradeFromClassName name = none →
      conflict12 (getGradeFromClassName name) destinationGrades = false ∧
      conflict34 (getGradeFromClassName name) destinationGrades = false) := by
  have hc12of : ∀ (hcase : (getGradeFromClassName className = some 1 ∧
      some 2 ∈ toSlotClasses.map getGradeFromClassName) ∨
      (getGradeFromClassName className = some 2 ∧
        some 1 ∈ toSlotClasses.map getGradeFromClassName)),
      conflict12 (getGradeFromClassName className)
        (toSlotClasses.map getGradeFromClassName) = true := by
    intro hcase
    rcases hcase with ⟨hg, hmem⟩ | ⟨hg, hmem⟩ <;> simp [conflict12, hg, hmem]
  have hc34of : ∀ (hcase : (getGradeFromClassName className = some 3 ∧
      some 4 ∈ toSlotClasses.map getGradeFromClassName) ∨
      (getGradeFromClassName className = some 4 ∧
        some 3 ∈ toSlotClasses.map getGradeFromClassName)),
      conflict12 (getGradeFromClassName className)
        (toSlotClasses.map getGradeFromClassName) = false ∧
      conflict34 (getGradeFromClassName className)
        (toSlotClasses.map getGradeFromClassName) = true := by
    intro hcase
    constructor
    · rcases hcase with ⟨hg, _⟩ | ⟨hg, _⟩ <;> simp [conflict12, hg]
    · rcases hcase with ⟨hg, hmem⟩ | ⟨hg, hmem⟩ <;> simp [conflict34, hg, hmem]
  refine ⟨?_, ?_, ?_, ?_⟩
  · intro hcase
    by_cases hmem : className ∈ toSlotClasses
    · have hs : handleMoveClass maxConcurrentClasses className f t s = s := by
        simp only [handleMoveClass, if_neg hne, hst, hto, if_pos hmem]
      rw [hs]
    · by_cases hcap2 : maxConcurrentClasses ≤ toSlotClasses.length
      · rw [handleMoveClass_capacity maxConcurrentClasses className f t s tt
          toSlotClasses hne hst hto hmem hcap2]
        exact hst.symm
      · have hcap' : toSlotClasses.length < maxConcurrentClasses := by omega
        rcases hcase with h1 | h1 | h1 | h1
        · rw [handleMoveClass_reject12 maxConcurrentClasses className f t s tt
            toSlotClasses hne hst hto hmem hcap' (hc12of (Or.inl h1))]
          exact hst.symm
        · rw [handleMoveClass_reject12 maxConcurrentClasses className f t s tt
            toSlotClasses hne hst hto hmem hcap' (hc12of (Or.inr h1))]
          exact hst.symm
        · obtain ⟨hca, hcb⟩ := hc34of (Or.inl h1)
          rw [handleMoveClass_reject34 maxConcurrentClasses className f t s tt
            toSlotClasses hne hst hto hmem hcap' hca hcb]
          exact hst.symm
        · obtain ⟨hca, hcb⟩ := hc34of (Or.inr h1)
          rw [handleMoveClass_reject34 maxConcurrentClasses className f t s tt
            toSlotClasses hne hst hto hmem hcap' hca hcb]
          exact hst.symm
  · intro hnotin hcap hcase
    rw [handleMoveClass_reject12 maxConcurrentClasses className f t s tt
      toSlotClasses hne hst hto hnotin hcap (hc12of hcase)]
  · intro hnotin hcap hcase
    obtain ⟨hca, hcb⟩ := hc34of hcase
    rw [handleMoveClass_reject34 maxConcurrentClasses className f t s tt
      toSlotClasses hne hst hto hnotin hcap hca hcb]
  · intro name destinationGrades hnone
    exact ⟨by simp [conflict12, hnone], by simp [conflict34, hnone]⟩

/-- The concrete timetable used by the C4 witness: a grade-2 class sits in
the destination slot. -/
def ttWitness4 : MultiRoomTimetable :=
  [("Room 1", [(.monday,
    [("Slot 1", ["Grade 2 - A"]), ("Slot 2", ["Grade 1 - A"])])])]

/-- Witness for **C4**: moving `Grade 1 - A` into the slot holding
`Grade 2 - A` is rejected with the grade-1/2 message and leaves the
timetable unchanged. -/
theorem c4_grade_exclusion_witness :
    (handleMoveClass 3 "Grade 1 - A"
        ⟨"Room 1", .monday, "Slot 2"⟩ ⟨"Room 1", .monday, "Slot 1"⟩
        ⟨some ttWitness4, none⟩).timetable = some ttWitness4 ∧
    (handleMoveClass 3 "Grade 1 - A"
        ⟨"Room 1", .monday, "Slot 2"⟩ ⟨"Room 1", .monday, "Slot 1"⟩
        ⟨some ttWitness4, none⟩).error = some gradeConflictMessage12 :=
  have h := c4_grade_exclusion 3 "Grade 1 - A"
    ⟨"Room 1", .monday, "Slot 2"⟩ ⟨"Room 1", .monday, "Slot 1"⟩
    ⟨some ttWitness4, none⟩ ttWitness4 ["Grade 2 - A"]
    (by decide) rfl (by decide)
  ⟨h.1 (Or.inl ⟨by decide, by decide⟩),
    h.2.1 (by decide) (by decide) (Or.inl ⟨by decide, by decide⟩)⟩

/-! ### Generation parameters (`App.tsx`) -/

/-- `GradeCounts` from `types.ts`: one nonnegative count per grade 1–5. -/
structure GradeCounts where
  grade1 : Nat
  grade2 : Nat
  grade3 : Nat
  grade4 : Nat
  grade5 : Nat
deriving DecidableEq

/-- `Object.entries(gradeCounts)`: integer-like keys are enumerated in
ascending order in JS. -/
def GradeCounts.entries (gc : GradeCounts) : List (Nat × Nat) :=
  [(1, gc.grade1), (2, gc.grade2), (3, gc.grade3), (4, gc.grade4),
    (5, gc.grade5)]

/-- `totalClasses`: `Object.values(gradeCounts).reduce((sum, c) => sum + c, 0)`. -/
def totalClasses (gc : GradeCounts) : Nat :=
  (gc.entries.map (fun p => p.2)).sum

/-- `maxPossibleClasses = maxConcurrentClasses * includedDays.length *
sessionsPerDay * numberOfRooms`. -/
def maxPossibleClasses (maxConcurrentClasses : Nat)
    (includedDays : List DayOfWeek) (sessionsPerDay numberOfRooms : Nat) :
    Nat :=
  maxConcurrentClasses * includedDays.length * sessionsPerDay * numberOfRooms

/-- `canGenerate = totalClasses > 0 && includedDays.length > 0 &&
totalClasses <= maxPossibleClasses && !isLoading`. -/
def canGenerate (gc : GradeCounts) (maxConcurrentClasses sessionsPerDay : Nat)
    (includedDays : List DayOfWeek) (numberOfRooms : Nat)
    (isLoading : Bool) : Bool :=
  decide (0 < totalClasses gc) && decide (0 < includedDays.length) &&
    decide (totalClasses gc ≤
      maxPossibleClasses maxConcurrentClasses includedDays sessionsPerDay
        numberOfRooms) && !isLoading

/-! ### Generation call and response validation (`geminiService.ts`)
The external AI call is an opaque collaborator: its outcome — a transport
or provider failure (an `Error` whose `message` is kept), or the
`JSON.parse`d response body — is an input of the model.  A JSON value is
modelled structurally. -/

/-- A parsed JS/JSON value. -/
inductive JSValue where
  | null
  | bool (b : Bool)
  | num (n : Int)
  | str (s : String)
  | arr (elems : List JSValue)
  | obj (fields : List (String × JSValue))

/-- `typeof v === 'object'` (true for objects, arrays and `null`). -/
def jsTypeofIsObject : JSValue → Bool
  | .obj _ => true
  | .arr _ => true
  | .null => true
  | _ => false

/-- `v === null`. -/
def jsIsNull : JSValue → Bool
  | .null => true
  | _ => false

/-- `Object.keys(v).length`: own enumerable keys (array and string indices
included), as evaluated on the values this code can reach. -/
def jsKeyCount : JSValue → Nat
  | .obj fields => fields.length
  | .arr elems => elems.length
  | .str s => s.length
  | _ => 0

/-- The message surfaced on a content-validation failure: the inner
`throw new Error("Invalid timetable format ...")` re-wrapped by the
`catch` as `Failed to generate timetable: ${error.message}`. -/
def contentErrorMessage : String :=
  "Failed to generate timetable: Invalid timetable format received from API. Expected a structure with rooms."

/-- `generateTimetable` from `geminiService.ts`, as a function of the
collaborator-call outcome: a thrown error is re-wrapped by the `catch`;
a parsed response is accepted only when it is a non-null object whose
top-level key count equals `numberOfRooms`, and otherwise rejected with
the content-validation message. -/
def generateTimetable (numberOfRooms : Nat)
    (callResult : Except String JSValue) : Except String JSValue :=
  match callResult with
  | .error message => .error ("Failed to generate timetable: " ++ message)
  | .ok parsedData =>
    if jsTypeofIsObject parsedData && !jsIsNull parsedData &&
        (jsKeyCount parsedData == numberOfRooms) then
      .ok parsedData
    else
      .error contentErrorMessage

/-- The pieces of React state touched by `handleGenerateClick`. -/
structure AppGenState where
  timetable : Option JSValue
  isLoading : Bool
  error : Option String

/-- `handleGenerateClick` from `App.tsx`, collapsed to its settled state:
the guard returns early when `canGenerate` is false; otherwise the
handler sets `isLoading`, clears the error, clears the timetable
(`setTimetable(null)`), awaits the generation, and ends with either the
new timetable or the caught error message (the timetable stays cleared),
with `isLoading` reset by `finally`. -/
def handleGenerateClick (gc : GradeCounts)
    (maxConcurrentClasses sessionsPerDay : Nat)
    (includedDays : List DayOfWeek) (numberOfRooms : Nat)
    (callResult : Except String JSValue) (s : AppGenState) : AppGenState :=
  if !canGenerate gc maxConcurrentClasses sessionsPerDay includedDays
      numberOfRooms s.isLoading then s
  else
    match generateTimetable numberOfRooms callResult with
    | .ok result =>
      { timetable := some result, isLoading := false, error := none }
    | .error message =>
      { timetable := none, isLoading := false, error := some message }

/-- **C6**: a parsed response whose top-level key count differs from the
configured room count is always rejected with the content-validation
failure and never returned as a timetable. -/
theorem c6_key_count_mismatch_rejected (numberOfRooms : Nat) (v : JSValue)
    (h : jsKeyCount v ≠ numberOfRooms) :
    generateTimetable numberOfRooms (Except.ok v) =
      Except.error contentErrorMessage ∧
    ∀ result, generateTimetable numberOfRooms (Except.ok v) ≠
      Except.ok result := by
  have hb : (jsKeyCount v == numberOfRooms) = false := by
    simp [h]
  have he : generateTimetable numberOfRooms (Except.ok v) =
      Except.error contentErrorMessage := by
    simp [generateTimetable, hb]
  exact ⟨he, fun result hr => by rw [he] at hr; cases hr⟩

/-- Witness for **C6**: an empty object against one configured room. -/
theorem c6_key_count_mismatch_rejected_witness :
    generateTimetable 1 (Except.ok (JSValue.obj [])) =
      Except.error contentErrorMessage ∧
    ∀ result, generateTimetable 1 (Except.ok (JSValue.obj [])) ≠
      Except.ok result :=
  c6_key_count_mismatch_rejected 1 (JSValue.obj []) (by decide)

/-- A previously generated one-room timetable, as held before a new
generation request (used by the C2 counterexample). -/
def priorTimetable : JSValue :=
  JSValue.obj [("Room 1", JSValue.obj [(("Monday" : String),
    JSValue.obj [("Slot 1", JSValue.arr [JSValue.str "Grade 1 - A"])])])]

/-- Counterexample to **C2** as stated: a generation request that ends in
a content-validation failure does not leave the timetable unchanged —
`handleGenerateClick` clears it to `none` at the start of the request and
the `catch` never restores it. -/
theorem c2_timetable_not_unchanged_counterexample :
    generateTimetable 1 (Except.ok (JSValue.obj [])) =
      Except.error contentErrorMessage ∧
    (handleGenerateClick ⟨1, 0, 0, 0, 0⟩ 3 2 [.monday] 1
        (Except.ok (JSValue.obj []))
        ⟨some priorTimetable, false, none⟩).timetable = none ∧
    (⟨some priorTimetable, false, none⟩ : AppGenState).timetable ≠ none := by
  refine ⟨rfl, rfl, ?_⟩
  intro h
  cases h

/-- **C2** (amended): whenever a permitted generation request ends in a
content-validation failure (the parsed response is not a non-null object
with exactly one top-level key per room), the distinct content-validation
message is surfaced and the timetable state is cleared to `none` — so no
partial timetable is ever shown, but the pre-request timetable is not
preserved. -/
theorem c2_content_failure_clears_timetable (gc : GradeCounts)
    (maxConcurrentClasses sessionsPerDay : Nat)
    (includedDays : List DayOfWeek) (numberOfRooms : Nat) (v : JSValue)
    (s : AppGenState)
    (hcan : canGenerate gc maxConcurrentClasses sessionsPerDay includedDays
      numberOfRooms s.isLoading = true)
    (hbad : (jsTypeofIsObject v && !jsIsNull v &&
      (jsKeyCount v == numberOfRooms)) = false) :
    handleGenerateClick gc maxConcurrentClasses sessionsPerDay includedDays
        numberOfRooms (Except.ok v) s =
      { timetable := none, isLoading := false,
        error := some contentErrorMessage } := by
  have hgen : generateTimetable numberOfRooms (Except.ok v) =
      Except.error contentErrorMessage := by
    simp [generateTimetable, hbad]
  simp [handleGenerateClick, hcan, hgen]

/-- Witness for the amended **C2** at a concrete failing response. -/
theorem c2_content_failure_clears_timetable_witness :
    handleGenerateClick ⟨1, 0, 0, 0, 0⟩ 3 2 [.monday] 1
        (Except.ok (JSValue.obj [])) ⟨some priorTimetable, false, none⟩ =
      { timetable := none, isLoading := false,
        error := some contentErrorMessage } :=
  c2_content_failure_clears_timetable ⟨1, 0, 0, 0, 0⟩ 3 2 [.monday] 1
    (JSValue.obj []) ⟨some priorTimetable, false, none⟩ (by decide) (by decide)

/-- **C9**: the generation trigger is enabled only when the requested
total is positive, at least one day is active and the total does not
exceed the derived capacity; whenever one of the three conditions fails,
`canGenerate` is false (the trigger is disabled), and a disabled trigger
makes `handleGenerateClick` a no-op. -/
theorem c9_generation_gate (gc : GradeCounts)
    (maxConcurrentClasses sessionsPerDay : Nat)
    (includedDays : List DayOfWeek) (numberOfRooms : Nat)
    (isLoading : Bool) :
    (canGenerate gc maxConcurrentClasses sessionsPerDay includedDays
        numberOfRooms isLoading = true →
      0 < totalClasses gc ∧ 0 < includedDays.length ∧
        totalClasses gc ≤ maxPossibleClasses maxConcurrentClasses
          includedDays sessionsPerDay numberOfRooms) ∧
    (¬(0 < totalClasses gc ∧ 0 < includedDays.length ∧
        totalClasses gc ≤ maxPossibleClasses maxConcurrentClasses
          includedDays sessionsPerDay numberOfRooms) →
      canGenerate gc maxConcurrentClasses sessionsPerDay includedDays
        numberOfRooms isLoading = false) ∧
    (∀ (callResult : Except String JSValue) (s : AppGenState),
      canGenerate gc maxConcurrentClasses sessionsPerDay includedDays
        numberOfRooms s.isLoading = false →
      handleGenerateClick gc maxConcurrentClasses sessionsPerDay includedDays
        numberOfRooms callResult s = s) := by
  refine ⟨?_, ?_, ?_⟩
  · intro h
    simp only [canGenerate, Bool.and_eq_true, decide_eq_true_eq] at h
    exact ⟨h.1.1.1, h.1.1.2, h.1.2⟩
  · intro h
    cases hc : canGenerate gc maxConcurrentClasses sessionsPerDay includedDays
      numberOfRooms isLoading with
    | false => rfl
    | true =>
      simp only [canGenerate, Bool.and_eq_true, decide_eq_true_eq] at hc
      exact absurd ⟨hc.1.1.1, hc.1.1.2, hc.1.2⟩ h
  · intro callResult s hs
    simp [handleGenerateClick, hs]

/-- Witness for **C9**: a valid configuration is accepted by the gate. -/
theorem c9_generation_gate_witness :
    0 < totalClasses ⟨1, 0, 0, 0, 0⟩ ∧
      0 < ([DayOfWeek.monday] : List DayOfWeek).length ∧
      totalClasses ⟨1, 0, 0, 0, 0⟩ ≤
        maxPossibleClasses 3 [DayOfWeek.monday] 2 1 :=
  (c9_generation_gate ⟨1, 0, 0, 0, 0⟩ 3 2 [DayOfWeek.monday] 1 false).1
    (by decide)

/-! ### Prompt and response-schema assembly (`geminiService.ts`) -/

/-- JS `Array.prototype.join(sep)`. -/
def joinSep (sep : String) : List String → String
  | [] => ""
  | [x] => x
  | x :: xs => x ++ sep ++ joinSep sep xs

theorem mem_joinSep_infix (sep : String) {a : String} :
    ∀ {l : List String}, a ∈ l → a.data <:+: (joinSep sep l).data := by
  intro l
  induction l with
  | nil => intro h; cases h
  | cons x xs ih =>
    intro h
    cases xs with
    | nil =>
      have ha : a = x := by simpa using h
      subst ha
      exact ⟨[], [], by simp [joinSep]⟩
    | cons y ys =>
      cases h with
      | head =>
        show a.data <:+: (a ++ sep ++ joinSep sep (y :: ys)).data
        simp only [String.data_append, List.append_assoc]
        exact infix_refl_append _ _
      | tail _ h' =>
        have hx := ih h'
        show a.data <:+: (x ++ sep ++ joinSep sep (y :: ys)).data
        simp only [String.data_append, List.append_assoc]
        exact infix_append_right _ (infix_append_right _ hx)

/-- The `- Grade <g>: <count> classes` lines, joined by newlines
(`classList` in `generatePrompt`). -/
def classList (gc : GradeCounts) : String :=
  joinSep "\n" (gc.entries.map (fun p =>
    "- Grade " ++ natToString p.1 ++ ": " ++ natToString p.2 ++ " classes"))

/-- `timeSlotList` source list: `Slot 1` … `Slot N` (also the `timeSlots`
`useMemo` of `App.tsx`). -/
def timeSlots (sessionsPerDay : Nat) : List String :=
  (List.range sessionsPerDay).map (fun i => "Slot " ++ natToString (i + 1))

/-- `timeSlotList = Array.from(...).join(', ')`. -/
def timeSlotList (sessionsPerDay : Nat) : String :=
  joinSep ", " (timeSlots sessionsPerDay)

/-- `dayList = includedDays.join(', ')`. -/
def dayList (includedDays : List DayOfWeek) : String :=
  joinSep ", " (includedDays.map dayName)

/-- `generatePrompt` from `geminiService.ts`: the template literal with
its interpolations. -/
def generatePrompt (gc : GradeCounts) (maxConcurrentClasses sessionsPerDay : Nat)
    (includedDays : List DayOfWeek) (numberOfRooms : Nat) : String :=
  "\n    You are an expert school timetable scheduler. Your task is to create a weekly timetable for a primary school with grades 1 through 5, distributing classes across "
  ++ natToString numberOfRooms ++
  " available rooms.\n\n    Here are the constraints:\n    1.  **Classes to Schedule:**\n        "
  ++ classList gc ++
  "\n        (When you create the schedule, name the classes like \"Grade 1 - A\", \"Grade 1 - B\", \"Grade 2 - A\", etc.)\n\n    2.  **Schedule Structure:**\n        - There are "
  ++ natToString numberOfRooms ++
  " rooms available, named \"Room 1\", \"Room 2\", etc.\n        - The week includes only the following days: "
  ++ dayList includedDays ++
  ".\n        - There are "
  ++ natToString sessionsPerDay ++
  " available time slots each day: "
  ++ timeSlotList sessionsPerDay ++
  ".\n\n    3.  **Scheduling Rules:**\n        - Every single class implied by the counts above must be scheduled exactly once across all rooms.\n        - In any single time slot (e.g., Room 1, Monday Slot 1), you cannot schedule more than "
  ++ natToString maxConcurrentClasses ++
  " classes in total.\n        - **Crucially, Grade 1 and Grade 2 classes must NEVER be scheduled in the same time slot together in the same room.**\n        - **Similarly, Grade 3 and Grade 4 classes must NEVER be scheduled in the same time slot together in the same room.**\n        - **VERY IMPORTANT ROOM ALLOCATION RULE: You must fill up the schedule for \"Room 1\" as much as possible before assigning any classes to \"Room 2\". Then, fill \"Room 2\" before \"Room 3\", and so on. Follow this sequential filling order strictly.**\n        - Distribute the classes as evenly as possible throughout the week to balance the school's activity, while respecting all other rules.\n\n    Please provide the generated timetable in the specified JSON format. The output should be a JSON object where the keys are the room names (e.g., \"Room 1\", \"Room 2\").\n  "

/-- A structured-output shape descriptor (the schema-literal objects built
with `Type.OBJECT` / `Type.ARRAY` / `Type.STRING`). -/
inductive Schema where
  | str : Schema
  | arrayOf (items : Schema) : Schema
  | objectOf (props : List (String × Schema)) (required : List String) :
      Schema

/-- Top-level `properties` of a descriptor. -/
def Schema.topProps : Schema → List (String × Schema)
  | .objectOf props _ => props
  | _ => []

/-- Top-level `required` list of a descriptor. -/
def Schema.topRequired : Schema → List String
  | .objectOf _ required => required
  | _ => []

/-- `generateSingleRoomResponseSchema` from `geminiService.ts`. -/
def generateSingleRoomResponseSchema (sessionsPerDay : Nat)
    (includedDays : List DayOfWeek) : Schema :=
  Schema.objectOf
    (includedDays.map (fun day => (dayName day,
      Schema.objectOf
        ((timeSlots sessionsPerDay).map (fun slotName =>
          (slotName, Schema.arrayOf Schema.str)))
        (timeSlots sessionsPerDay))))
    (includedDays.map dayName)

/-- `generateResponseSchema` from `geminiService.ts`: one property per
room `Room 1` … `Room N`, all required. -/
def generateResponseSchema (sessionsPerDay : Nat)
    (includedDays : List DayOfWeek) (numberOfRooms : Nat) : Schema :=
  Schema.objectOf
    (((List.range numberOfRooms).map (fun i => "Room " ++ natToString (i + 1))).map
      (fun roomName =>
        (roomName, generateSingleRoomResponseSchema sessionsPerDay includedDays)))
    ((List.range numberOfRooms).map (fun i => "Room " ++ natToString (i + 1)))

theorem infix_append_left {α : Type} (y : List α) {l m : List α}
    (h : l <:+: m) : l <:+: m ++ y := by
  obtain ⟨s, t', rfl⟩ := h
  exact ⟨s, t' ++ y, by simp⟩

theorem roomName_injective :
    Function.Injective (fun i : Nat => "Room " ++ natToString (i + 1)) := by
  intro i j h
  simp only at h
  have hd := congrArg String.data h
  simp only [String.data_append] at hd
  have h2 := List.append_cancel_left hd
  have h3 : natToString (i + 1) = natToString (j + 1) := String.ext h2
  have h4 := natToString_injective h3
  omega

set_option maxRecDepth 8192 in
/-- **C7**: for valid schedule parameters the generation brief literally
contains every active day name and every slot label `Slot 1` … `Slot N`,
and the shape descriptor has exactly one top-level property per room, all
of them required, with pairwise-distinct room keys — so its top-level key
count equals the configured room count. -/
theorem c7_brief_and_shape (gc : GradeCounts)
    (maxConcurrentClasses sessionsPerDay : Nat)
    (includedDays : List DayOfWeek) (numberOfRooms : Nat)
    (hsess : 0 < sessionsPerDay) (hrooms : 0 < numberOfRooms)
    (hdays : includedDays ≠ []) :
    (∀ d ∈ includedDays, (dayName d).data <:+:
      (generatePrompt gc maxConcurrentClasses sessionsPerDay includedDays
        numberOfRooms).data) ∧
    (∀ i, 1 ≤ i → i ≤ sessionsPerDay →
      ("Slot " ++ natToString i).data <:+:
        (generatePrompt gc maxConcurrentClasses sessionsPerDay includedDays
          numberOfRooms).data) ∧
    (generateResponseSchema sessionsPerDay includedDays
      numberOfRooms).topProps.length = numberOfRooms ∧
    (generateResponseSchema sessionsPerDay includedDays
        numberOfRooms).topRequired =
      ((generateResponseSchema sessionsPerDay includedDays
        numberOfRooms).topProps.map Prod.fst) ∧
    ((generateResponseSchema sessionsPerDay includedDays
      numberOfRooms).topProps.map Prod.fst).Nodup := by
  refine ⟨?_, ?_, ?_, ?_, ?_⟩
  · intro d hd
    have h1 : (dayName d).data <:+: (dayList includedDays).data :=
      mem_joinSep_infix ", " (List.mem_map_of_mem dayName hd)
    simp only [generatePrompt, String.data_append, List.append_assoc]
    exact infix_append_right _ (infix_append_right _ (infix_append_right _
      (infix_append_right _ (infix_append_right _ (infix_append_right _
        (infix_append_right _ (infix_append_left _ h1)))))))
  · intro i h1i hiN
    have hmem : ("Slot " ++ natToString i) ∈ timeSlots sessionsPerDay := by
      simp only [timeSlots, List.mem_map]
      refine ⟨i - 1, List.mem_range.mpr (by omega), ?_⟩
      rw [(by omega : i - 1 + 1 = i)]
    have h1 : ("Slot " ++ natToString i).data <:+:
        (timeSlotList sessionsPerDay).data :=
      mem_joinSep_infix ", " hmem
    simp only [generatePrompt, String.data_append, List.append_assoc]
    exact infix_append_right _ (infix_append_right _ (infix_append_right _
      (infix_append_right _ (infix_append_right _ (infix_append_right _
        (infix_append_right _ (infix_append_right _ (infix_append_right _
          (infix_append_right _ (infix_append_right _
            (infix_append_left _ h1)))))))))))
  · simp [generateResponseSchema, Schema.topProps]
  · simp [generateResponseSchema, Schema.topProps, Schema.topRequired,
      List.map_map, Function.comp]
  · have heq : ((generateResponseSchema sessionsPerDay includedDays
        numberOfRooms).topProps.map Prod.fst) =
        (List.range numberOfRooms).map
          (fun i => "Room " ++ natToString (i + 1)) := by
      simp [generateResponseSchema, Schema.topProps, List.map_map,
        Function.comp]
    rw [heq]
    exact List.Nodup.map roomName_injective (List.nodup_range numberOfRooms)

/-- Witness for **C7** at the spec's end-to-end scenario parameters. -/
theorem c7_brief_and_shape_witness :
    (∀ d ∈ ([DayOfWeek.monday] : List DayOfWeek), (dayName d).data <:+:
      (generatePrompt ⟨2, 0, 0, 0, 0⟩ 3 2 [DayOfWeek.monday] 1).data) ∧
    (∀ i, 1 ≤ i → i ≤ 2 →
      ("Slot " ++ natToString i).data <:+:
        (generatePrompt ⟨2, 0, 0, 0, 0⟩ 3 2 [DayOfWeek.monday] 1).data) ∧
    (generateResponseSchema 2 [DayOfWeek.monday] 1).topProps.length = 1 ∧
    (generateResponseSchema 2 [DayOfWeek.monday] 1).topRequired =
      ((generateResponseSchema 2 [DayOfWeek.monday] 1).topProps.map
        Prod.fst) ∧
    ((generateResponseSchema 2 [DayOfWeek.monday] 1).topProps.map
      Prod.fst).Nodup :=
  c7_brief_and_shape ⟨2, 0, 0, 0, 0⟩ 3 2 [DayOfWeek.monday] 1
    (by decide) (by decide) (by decide)

/-! ### Active-day toggling (`handleDayToggle` in `App.tsx`) -/

/-- `handleDayToggle` from `App.tsx`: remove the day when present,
append it when absent, then sort by `DAYS_OF_WEEK.indexOf` (the JS
comparator `(a, b) => indexOf(a) - indexOf(b)`). -/
def handleDayToggle (day : DayOfWeek) (prev : List DayOfWeek) :
    List DayOfWeek :=
  List.mergeSort
    ((if day ∈ prev then prev.filter (fun d => decide (d ≠ day))
      else prev ++ [day]) : List DayOfWeek)
    (fun a b => decide (dayIdx a ≤ dayIdx b))

theorem dayIdx_injective : ∀ a b : DayOfWeek, dayIdx a = dayIdx b → a = b :=
  by decide

theorem handleDayToggle_invariant (day : DayOfWeek) (prev : List DayOfWeek)
    (hnd : prev.Nodup) :
    (handleDayToggle day prev).Nodup ∧
    (handleDayToggle day prev).Pairwise (fun a b => dayIdx a < dayIdx b) := by
  have hnew : (if day ∈ prev then prev.filter (fun d => decide (d ≠ day))
      else prev ++ [day]).Nodup := by
    by_cases hmem : day ∈ prev
    · rw [if_pos hmem]
      exact hnd.filter _
    · rw [if_neg hmem]
      refine List.nodup_append.mpr ⟨hnd, List.nodup_singleton day, ?_⟩
      intro a ha hb
      have : a = day := by simpa using hb
      subst this
      exact hmem ha
  have hperm := List.mergeSort_perm
    (if day ∈ prev then prev.filter (fun d => decide (d ≠ day))
      else prev ++ [day]) (fun a b => decide (dayIdx a ≤ dayIdx b))
  have hnodup : (handleDayToggle day prev).Nodup := by
    rw [handleDayToggle]
    exact hperm.nodup_iff.mpr hnew
  have hsorted : (handleDayToggle day prev).Pairwise
      (fun a b => (decide (dayIdx a ≤ dayIdx b)) = true) := by
    rw [handleDayToggle]
    refine List.sorted_mergeSort ?_ ?_ _
    · intro a b c hab hbc
      simp only [decide_eq_true_eq] at *
      omega
    · intro a b
      rcases Nat.le_total (dayIdx a) (dayIdx b) with h | h <;> simp [h]
  refine ⟨hnodup, ?_⟩
  have hand := hsorted.and hnodup
  refine hand.imp ?_
  intro a b hab
  obtain ⟨hle, hneq⟩ := hab
  simp only [decide_eq_true_eq] at hle
  rcases Nat.lt_or_ge (dayIdx a) (dayIdx b) with h | h
  · exact h
  · have : dayIdx a = dayIdx b := by omega
    exact absurd (dayIdx_injective a b this) hneq

/-- **C8**: after any sequence of day toggles starting from the initial
all-days state, the active-days list is duplicate-free, contains only the
five weekdays, and is in strictly increasing calendar order. -/
theorem c8_day_toggles_sorted_nodup (toggles : List DayOfWeek) :
    (toggles.foldl (fun s d => handleDayToggle d s) DAYS_OF_WEEK).Nodup ∧
    (∀ d ∈ toggles.foldl (fun s d => handleDayToggle d s) DAYS_OF_WEEK,
      d ∈ DAYS_OF_WEEK) ∧
    (toggles.foldl (fun s d => handleDayToggle d s) DAYS_OF_WEEK).Pairwise
      (fun a b => dayIdx a < dayIdx b) := by
  have main : ∀ (ts : List DayOfWeek) (s : List DayOfWeek), s.Nodup →
      s.Pairwise (fun a b => dayIdx a < dayIdx b) →
      (ts.foldl (fun s d => handleDayToggle d s) s).Nodup ∧
      (ts.foldl (fun s d => handleDayToggle d s) s).Pairwise
        (fun a b => dayIdx a < dayIdx b) := by
    intro ts
    induction ts with
    | nil => intro s hnd hsort; exact ⟨hnd, hsort⟩
    | cons d ts ih =>
      intro s hnd _
      have hstep := handleDayToggle_invariant d s hnd
      simpa using ih (handleDayToggle d s) hstep.1 hstep.2
  have hmem : ∀ d : DayOfWeek, d ∈ DAYS_OF_WEEK := by decide
  have h := main toggles DAYS_OF_WEEK (by decide) (by decide)
  exact ⟨h.1, fun d _ => hmem d, h.2⟩

/-! ### Characterisation of the grade-extraction regex -/

theorem matchGradeAt_some_iff (l : List Char) (g : Nat) :
    matchGradeAt l = some g ↔
      ∃ d : Char, d.isDigit ∧ ("Grade ".data ++ [d]) <+: l ∧
        g = d.toNat - 48 := by
  by_cases hp : "Grade ".data.isPrefixOf l
  · obtain ⟨rest, hrest⟩ := List.isPrefixOf_iff_prefix.mp hp
    subst hrest
    have hdrop : ("Grade ".data ++ rest).drop 6 = rest := by
      have h6 : ("Grade ".data).length = 6 := rfl
      rw [← h6, List.drop_left]
    rw [matchGradeAt, if_pos hp, hdrop]
    cases rest with
    | nil =>
      constructor
      · intro h; cases h
      · rintro ⟨d, hd, ⟨t', ht⟩, hg⟩
        have := congrArg List.length ht
        simp at this
    | cons d rest' =>
      show (if d.isDigit then some (d.toNat - 48) else none) = some g ↔ _
      by_cases hdig : d.isDigit
      · rw [if_pos hdig]
        constructor
        · intro h
          injection h with h
          exact ⟨d, hdig, ⟨rest', by simp⟩, h.symm⟩
        · rintro ⟨d', hd', ⟨t', ht⟩, hg⟩
          rw [List.append_assoc] at ht
          have ht' : [d'] ++ t' = d :: rest' := List.append_cancel_left ht
          have hdd : d' = d := by injection ht'
          rw [hg, hdd]
      · rw [if_neg hdig]
        constructor
        · intro h; cases h
        · rintro ⟨d', hd', ⟨t', ht⟩, hg⟩
          rw [List.append_assoc] at ht
          have ht' : [d'] ++ t' = d :: rest' := List.append_cancel_left ht
          have hdd : d' = d := by injection ht'
          rw [hdd] at hd'
          exact absurd hd' hdig
  · rw [matchGradeAt, if_neg hp]
    constructor
    · intro h; cases h
    · rintro ⟨d, hd, ⟨t', ht⟩, hg⟩
      have hpre : "Grade ".data <+: l :=
        ⟨[d] ++ t', by rw [← ht]; simp⟩
      exact absurd (List.isPrefixOf_iff_prefix.mpr hpre) hp

theorem matchGradeAt_none_iff (l : List Char) :
    matchGradeAt l = none ↔
      ∀ d : Char, ¬(d.isDigit ∧ ("Grade ".data ++ [d]) <+: l) := by
  constructor
  · intro hnone d ⟨hd, hpre⟩
    have : matchGradeAt l = some (d.toNat - 48) :=
      (matchGradeAt_some_iff l (d.toNat - 48)).mpr ⟨d, hd, hpre, rfl⟩
    rw [hnone] at this
    cases this
  · intro hall
    cases h : matchGradeAt l with
    | none => rfl
    | some g =>
      obtain ⟨d, hd, hpre, _⟩ := (matchGradeAt_some_iff l g).mp h
      exact absurd ⟨hd, hpre⟩ (hall d)

theorem gradeScan_some_iff :
    ∀ (l : List Char) (g : Nat), gradeScan l = some g ↔
      ∃ i, matchGradeAt (l.drop i) = some g ∧
        ∀ j, j < i → matchGradeAt (l.drop j) = none := by
  intro l
  induction l with
  | nil =>
    intro g
    constructor
    · intro h; cases h
    · rintro ⟨i, hi, _⟩
      rw [List.drop_nil] at hi
      cases hi
  | cons c cs ih =>
    intro g
    cases h : matchGradeAt (c :: cs) with
    | some g0 =>
      rw [gradeScan, h]
      constructor
      · intro hg
        injection hg with hg
        exact ⟨0, by rw [List.drop_zero, h, hg], by omega⟩
      · rintro ⟨i, hi, hj⟩
        cases i with
        | zero =>
          rw [List.drop_zero, h] at hi
          injection hi with hi
          rw [hi]
        | succ i' =>
          have := hj 0 (by omega)
          rw [List.drop_zero, h] at this
          cases this
    | none =>
      rw [gradeScan, h]
      rw [ih g]
      constructor
      · rintro ⟨i, hi, hj⟩
        refine ⟨i + 1, by rw [List.drop_succ_cons]; exact hi, ?_⟩
        intro j hji
        cases j with
        | zero => rw [List.drop_zero]; exact h
        | succ j' =>
          rw [List.drop_succ_cons]
          exact hj j' (by omega)
      · rintro ⟨i, hi, hj⟩
        cases i with
        | zero =>
          rw [List.drop_zero, h] at hi
          cases hi
        | succ i' =>
          rw [List.drop_succ_cons] at hi
          refine ⟨i', hi, ?_⟩
          intro j hji
          have := hj (j + 1) (by omega)
          rw [List.drop_succ_cons] at this
          exact this

theorem gradeScan_none_iff :
    ∀ l : List Char, gradeScan l = none ↔
      ∀ i, matchGradeAt (l.drop i) = none := by
  intro l
  induction l with
  | nil =>
    constructor
    · intro _ i
      rw [List.drop_nil]
      rfl
    · intro _; rfl
  | cons c cs ih =>
    cases h : matchGradeAt (c :: cs) with
    | some g0 =>
      rw [gradeScan, h]
      constructor
      · intro hg; cases hg
      · intro hall
        have := hall 0
        rw [List.drop_zero, h] at this
        cases this
    | none =>
      rw [gradeScan, h, ih]
      constructor
      · intro hall i
        cases i with
        | zero => rw [List.drop_zero]; exact h
        | succ i' => rw [List.drop_succ_cons]; exact hall i'
      · intro hall i
        have := hall (i + 1)
        rw [List.drop_succ_cons] at this
        exact this

/-- **C10**: `getGradeFromClassName` is not anchored: it returns the digit
immediately following the first position at which the text reads
`Grade <digit>` (so `Grade 12 - A` yields 1 and `Extra Grade 3 prep`
yields 3), and it returns no grade exactly when no occurrence of `Grade `
followed by a digit exists anywhere in the name. -/
theorem c10_grade_extraction_characterisation :
    (∀ (s : String) (g : Nat),
      getGradeFromClassName s = some g ↔
        ∃ i d, (d.isDigit ∧ ("Grade ".data ++ [d]) <+: s.data.drop i) ∧
          g = d.toNat - 48 ∧
          ∀ j, j < i → ∀ d',
            ¬(d'.isDigit ∧ ("Grade ".data ++ [d']) <+: s.data.drop j)) ∧
    (∀ s : String, getGradeFromClassName s = none ↔
      ∀ i d, ¬(d.isDigit ∧ ("Grade ".data ++ [d]) <+: s.data.drop i)) ∧
    getGradeFromClassName "Grade 12 - A" = some 1 ∧
    getGradeFromClassName "Extra Grade 3 prep" = some 3 ∧
    getGradeFromClassName "Advanced Algebra" = none := by
  refine ⟨?_, ?_, by decide, by decide, by decide⟩
  · intro s g
    rw [getGradeFromClassName, gradeScan_some_iff]
    constructor
    · rintro ⟨i, hi, hj⟩
      obtain ⟨d, hd, hpre, hg⟩ := (matchGradeAt_some_iff _ _).mp hi
      exact ⟨i, d, ⟨hd, hpre⟩, hg, fun j hji d' hd' =>
        (matchGradeAt_none_iff _).mp (hj j hji) d' hd'⟩
    · rintro ⟨i, d, ⟨hd, hpre⟩, hg, hj⟩
      exact ⟨i, (matchGradeAt_some_iff _ _).mpr ⟨d, hd, hpre, hg⟩,
        fun j hji => (matchGradeAt_none_iff _).mpr
          (fun d' hd' => hj j hji d' hd')⟩
  · intro s
    rw [getGradeFromClassName, gradeScan_none_iff]
    constructor
    · intro hall i d hd
      exact (matchGradeAt_none_iff _).mp (hall i) d hd
    · intro hall i
      exact (matchGradeAt_none_iff _).mpr (fun d hd => hall i d hd)
